import Mathlib

/-!
Shallow embedding of the streamflow-viz synchronization engine.

Sources embedded here:
- src/app/api/flow/route.ts        (query-parameter defaults, getFlowCategory)
- src/components/StreamflowMap.tsx (direct-query mode: debounce, zoom-adaptive
  limit, fetch cycle, stats update)
- src/unnamed/part_001             (overlay mode: getFlowCategory, chunked
  applyFeatureStates, fetchLiveData, refresh interval)

Numbers that are JavaScript `number`s are modelled as rationals (ℚ); counters
and ids as naturals. Fallible steps are modelled by explicit outcome types.
-/

/-- The six flow categories used by both the API route and the client styling. -/
inductive FlowCategory
  | very_low
  | low
  | moderate
  | high
  | very_high
  | extreme
deriving DecidableEq, Repr

namespace Route

/-- From src/app/api/flow/route.ts lines 60-67:
`if (cms < 1) return 'very_low'; if (cms < 10) ...; return 'extreme'`. -/
def getFlowCategory (cms : ℚ) : FlowCategory :=
  if cms < 1 then .very_low
  else if cms < 10 then .low
  else if cms < 50 then .moderate
  else if cms < 200 then .high
  else if cms < 1000 then .very_high
  else .extreme

end Route

namespace Client

/-- From src/unnamed/part_001 lines 26-33, the overlay-mode styling copy of
the categorizer (textually identical thresholds to the route's). -/
def getFlowCategory (cms : ℚ) : FlowCategory :=
  if cms < 1 then .very_low
  else if cms < 10 then .low
  else if cms < 50 then .moderate
  else if cms < 200 then .high
  else if cms < 1000 then .very_high
  else .extreme

end Client

/-- Severity rank of a category, in the spec's order (very_low least severe,
extreme most severe); used to state monotonicity of the categorizer. -/
def severity : FlowCategory → ℕ
  | .very_low => 0
  | .low => 1
  | .moderate => 2
  | .high => 3
  | .very_high => 4
  | .extreme => 5

/-- A viewport: the visible rectangle plus zoom, as read off the map handle in
src/components/StreamflowMap.tsx lines 63-66 (`map.getBounds()`, `map.getZoom()`). -/
structure Viewport where
  west : ℚ
  south : ℚ
  east : ℚ
  north : ℚ
  zoom : ℚ
deriving DecidableEq, Repr

/-- A planned spatial query: the bbox parameters plus the row cap, exactly the
URLSearchParams built in src/components/StreamflowMap.tsx lines 76-82. -/
structure QuerySpec where
  west : ℚ
  south : ℚ
  east : ℚ
  north : ℚ
  limit : ℕ
deriving DecidableEq, Repr

/-- From src/components/StreamflowMap.tsx lines 69-72, the sequence of
assignments `let limit = 2000; if (zoom >= 8) limit = 5000;
if (zoom >= 10) limit = 8000; if (zoom < 6) limit = 1000;`. -/
def planLimit (zoom : ℚ) : ℕ :=
  let limit : ℕ := 2000
  let limit : ℕ := if zoom ≥ 8 then 5000 else limit
  let limit : ℕ := if zoom ≥ 10 then 8000 else limit
  let limit : ℕ := if zoom < 6 then 1000 else limit
  limit

/-- The query planned for a viewport: bbox fields passed through unchanged,
limit from the zoom step function (src/components/StreamflowMap.tsx 63-82). -/
def plan (v : Viewport) : QuerySpec :=
  { west := v.west, south := v.south, east := v.east, north := v.north
    limit := planLimit v.zoom }

/-- The zoom/limit step function as written in the spec's table (§4.3):
zoom < 6 gives 1000, 6 ≤ zoom < 8 gives 2000, 8 ≤ zoom < 10 gives 5000,
zoom ≥ 10 gives 8000. Stated from the spec's words, for comparison with
`planLimit`, which is the code's. -/
def specTableLimit (zoom : ℚ) : ℕ :=
  if zoom < 6 then 1000
  else if zoom < 8 then 2000
  else if zoom < 10 then 5000
  else 8000

/-- Query parameters of the flow endpoint as they arrive: each may be absent.
Present values are modelled already parsed (parseFloat / parseInt of the
source). -/
structure FlowQueryParams where
  west : Option ℚ
  south : Option ℚ
  east : Option ℚ
  north : Option ℚ
  limit : Option ℤ
deriving DecidableEq, Repr

/-- The effective inputs fed to the SQL query after defaulting. -/
structure QueryInputs where
  west : ℚ
  south : ℚ
  east : ℚ
  north : ℚ
  limit : ℤ
deriving DecidableEq, Repr

/-- From src/app/api/flow/route.ts lines 8-12: each bbox parameter defaults via
`searchParams.get(x) || 'default'` (west -180, south -90, east 180, north 90)
and limit defaults to 5000. -/
def routeEffective (p : FlowQueryParams) : QueryInputs :=
  { west := p.west.getD (-180)
    south := p.south.getD (-90)
    east := p.east.getD 180
    north := p.north.getD 90
    limit := p.limit.getD 5000 }

/-- One feature of the direct-query mode's GeoJSON response; only the fields
the synchronization logic reads are carried (src/components/StreamflowMap.tsx
lines 27-43). -/
structure FlowFeature where
  comid : ℕ
  streamflow_cms : ℚ
deriving DecidableEq, Repr

/-- The parsed JSON body of a `/api/flow` response. A successful query yields a
FeatureCollection; a failed one yields `{error: string}` (route.ts line 56),
which has no `features` field. -/
inductive JsonBody
  | collection (features : List FlowFeature)
  | errorBody (msg : String)
deriving DecidableEq, Repr

/-- Outcome of one direct-mode fetch: either a parsed response body, or the
fetch (or `response.json()`) threw before any state was set. -/
inductive FetchOutcome
  | response (body : JsonBody)
  | networkError
deriving DecidableEq, Repr

/-- The observational RenderStats `{count, maxFlow}` kept in React state. -/
structure RenderStats where
  count : ℕ
  maxFlow : ℚ
deriving DecidableEq, Repr

/-- React state of the direct-query component (src/components/StreamflowMap.tsx
lines 47-50). `hasUpdate` abstracts `lastUpdate` being set to a Date. There is
no error field: the component keeps none. -/
structure DirectState where
  flowData : Option JsonBody
  loading : Bool
  hasUpdate : Bool
  stats : RenderStats
deriving DecidableEq, Repr

/-- `Math.max(...)` over a list of flows, as used on line 92 of
StreamflowMap.tsx. The source only evaluates it under a `length > 0` guard, so
the value chosen for `[]` is never observed. -/
def mathMaxFlows : List ℚ → ℚ
  | [] => 0
  | f :: fs => fs.foldl max f

/-- Resolution of one in-flight direct-mode fetch, from
src/components/StreamflowMap.tsx lines 84-99. On a parsed body the code runs
`setFlowData(data); setLastUpdate(...)` and then, only when
`data.features.length > 0`, recomputes stats; an `{error}` body makes
`data.features.length` throw after `setFlowData` already ran; a network or
parse error reaches the catch with no state set. `finally` clears loading. -/
def resolveFetch (s : DirectState) (o : FetchOutcome) : DirectState :=
  match o with
  | .networkError => { s with loading := false }
  | .response body =>
    match body with
    | .collection fs =>
      let s1 := { s with flowData := some (.collection fs), hasUpdate := true }
      let s2 := if fs.length > 0 then
          { s1 with stats :=
              { count := fs.length
                maxFlow := mathMaxFlows (fs.map (·.streamflow_cms)) } }
        else s1
      { s2 with loading := false }
    | .errorBody m =>
      { s with flowData := some (.errorBody m), hasUpdate := true, loading := false }

/-- One event of the direct-mode fetch loop. The generation label `g` is pure
bookkeeping for stating ordering properties: the code itself carries no
generation and ignores it. -/
inductive DirectEvent
  | issue (g : ℕ)
  | resolve (g : ℕ) (o : FetchOutcome)
deriving DecidableEq, Repr

/-- Single-threaded event-loop step for the direct mode: firing a (debounced)
fetch sets `loading` (line 74); a response arriving runs the continuation of
`fetchFlowDataInner` from the `await` onwards, i.e. `resolveFetch`. -/
def directStep (s : DirectState) (e : DirectEvent) : DirectState :=
  match e with
  | .issue _ => { s with loading := true }
  | .resolve _ o => resolveFetch s o

/-- Run the direct-mode event loop over a trace of events in the order the
event loop executes them (responses in network-arrival order). -/
def runDirect (s : DirectState) (es : List DirectEvent) : DirectState :=
  es.foldl directStep s

/-- The debounce quiescence window: 300 ms
(src/components/StreamflowMap.tsx line 104). -/
def DEBOUNCE_MS : ℕ := 300

/-- A settle event: the time `onMoveEnd` fires and the viewport at that
moment. -/
structure SettleEvent where
  time : ℕ
  viewport : Viewport
deriving DecidableEq, Repr

/-- Semantics of `debounce(fetchFlowDataInner, 300)` (StreamflowMap.tsx lines
9-15, 103-112) over a time-ordered burst of settle events: each event clears
the pending timer and arms a new one for `time + DEBOUNCE_MS`; a timer whose
deadline precedes the next event fires first. A fire invokes
`fetchFlowDataInner`, which reads the map's current viewport — the viewport of
the most recent settle. Returns the list of (fire time, viewport read). -/
def debounceFires : List SettleEvent → List (ℕ × Viewport)
  | [] => []
  | [e] => [(e.time + DEBOUNCE_MS, e.viewport)]
  | e₁ :: e₂ :: rest =>
    if e₁.time + DEBOUNCE_MS ≤ e₂.time then
      (e₁.time + DEBOUNCE_MS, e₁.viewport) :: debounceFires (e₂ :: rest)
    else
      debounceFires (e₂ :: rest)

/-- Per-feature render state written by `setFeatureState`
(src/unnamed/part_001 lines 71-81): the flow value and its category. -/
structure FeatureState where
  flow : ℚ
  category : FlowCategory
deriving DecidableEq, Repr

/-- The render surface of the overlay mode: the set of feature ids present in
the loaded tileset, and the feature-state store keyed by id. `present` is
fixed by the tileset; `setFeatureState` never adds or removes ids. -/
structure Surface where
  present : List ℕ
  states : List (ℕ × FeatureState)
deriving DecidableEq, Repr

/-- `map.setFeatureState({source, sourceLayer, id}, {flow, category})` as used
in part_001 lines 71-81: succeeds (updating the store) when the id exists in
the loaded tileset, throws otherwise — the source wraps the call in try/catch
with the comment "Feature may not be in tileset". `none` models the throw. -/
def setFeatureState (s : Surface) (id : ℕ) (fs : FeatureState) : Option Surface :=
  if id ∈ s.present then
    some { s with states := (id, fs) :: s.states.filter (fun p => p.1 ≠ id) }
  else
    none

/-- The per-cycle accumulator of `applyFeatureStates` (part_001 lines 59-62):
the shared surface plus the closure-local `successCount` and `maxFlow`. -/
structure ApplyAcc where
  surf : Surface
  successCount : ℕ
  maxFlow : ℚ
deriving DecidableEq, Repr

/-- The body of the inner loop of `processChunk` (part_001 lines 68-87): try
`setFeatureState`; on success increment `successCount` and update `maxFlow`
by `if (streamflow > maxFlow) maxFlow = streamflow`; on the throw (feature
absent) the catch swallows and the entry is skipped. -/
def applyEntry (acc : ApplyAcc) (e : ℕ × ℚ) : ApplyAcc :=
  match setFeatureState acc.surf e.1 ⟨e.2, Client.getFlowCategory e.2⟩ with
  | some surf =>
    { surf := surf
      successCount := acc.successCount + 1
      maxFlow := if e.2 > acc.maxFlow then e.2 else acc.maxFlow }
  | none => acc

/-- `CHUNK_SIZE = 5000` (part_001 line 63). -/
def CHUNK_SIZE : ℕ := 5000

/-- The slices `processChunk` works through: each scheduling turn handles
`entries[index .. min(index + CHUNK_SIZE, length))` (part_001 lines 65-92),
i.e. successive blocks of CHUNK_SIZE entries, the last one possibly shorter. -/
def chunksOf : List (ℕ × ℚ) → List (List (ℕ × ℚ))
  | [] => []
  | e :: es =>
    ((e :: es).take CHUNK_SIZE) :: chunksOf ((e :: es).drop CHUNK_SIZE)
termination_by l => l.length
decreasing_by
  simp only [List.length_drop]
  have : 0 < CHUNK_SIZE := by decide
  simp only [List.length_cons]
  omega

/-- The complete effect of one uninterrupted `applyFeatureStates(data)` run
(part_001 lines 50-99): fold every slice, in order, over the accumulator
starting from `successCount = 0`, `maxFlow = 0`. -/
def applyFeatureStates (surf : Surface) (entries : List (ℕ × ℚ)) : ApplyAcc :=
  (chunksOf entries).foldl (fun a c => c.foldl applyEntry a) ⟨surf, 0, 0⟩

/-- The RenderStats published after the final slice (part_001 line 95). -/
def applyStats (surf : Surface) (entries : List (ℕ × ℚ)) : RenderStats :=
  let a := applyFeatureStates surf entries
  ⟨a.successCount, a.maxFlow⟩

/-- Parsed live-feed document (part_001 lines 18-23): `sites` is the
comid → streamflow mapping, in `Object.entries` order. -/
structure LiveData where
  reference_time : String
  sites : List (ℕ × ℚ)
deriving DecidableEq, Repr

/-- Outcome of one overlay-mode fetch of the S3 document: parsed data, a
non-2xx response (`!response.ok` throws `HTTP <status>`, part_001 line 109),
or a thrown network / body-parse error with its message. -/
inductive LiveOutcome
  | ok (d : LiveData)
  | httpError (status : ℕ)
  | networkError (msg : String)
deriving DecidableEq, Repr

/-- React state of the overlay component (part_001 lines 37-41) plus the map's
render surface. `hasSource` models `map.getSource("rivers")` being non-null. -/
structure OverlayState where
  loading : Bool
  error : Option String
  hasUpdate : Bool
  referenceTime : Option String
  hasSource : Bool
  surf : Surface
  stats : RenderStats
deriving DecidableEq, Repr

/-- One complete `fetchLiveData` cycle (part_001 lines 103-123) together with
the apply work it triggers: set loading, clear error; on success record the
reference time and run `applyFeatureStates` (which early-returns when the
source is absent, lines 54-57); on any throw set the error message; `finally`
clears loading. The chunked apply is folded to its final effect here; its
slice-by-slice interleaving is modelled separately by the scheduler below. -/
def fetchLiveDataStep (s : OverlayState) (o : LiveOutcome) : OverlayState :=
  let s0 := { s with loading := true, error := none }
  match o with
  | .ok d =>
    let s1 := { s0 with hasUpdate := true, referenceTime := some d.reference_time }
    let s2 := if s1.hasSource then
        let a := applyFeatureStates s1.surf d.sites
        { s1 with surf := a.surf, stats := ⟨a.successCount, a.maxFlow⟩ }
      else s1
    { s2 with loading := false }
  | .httpError st =>
    { s0 with error := some ("HTTP " ++ toString st), loading := false }
  | .networkError m =>
    { s0 with error := some m, loading := false }

/-- One in-flight apply cycle: the closure state of a `processChunk` chain
(part_001 lines 59-97). Each `applyFeatureStates` call creates fresh closure
variables, so concurrent cycles have independent `index` / `successCount` /
`maxFlow` but share the map surface and the published stats. -/
structure ApplyCycle where
  entries : List (ℕ × ℚ)
  index : ℕ
  successCount : ℕ
  maxFlow : ℚ
deriving DecidableEq, Repr

/-- The event-loop state for overlay applies: the shared surface, the last
published RenderStats, and the FIFO queue of `requestAnimationFrame`
continuations. -/
structure SchedState where
  surf : Surface
  stats : RenderStats
  queue : List ApplyCycle
deriving DecidableEq, Repr

/-- One execution of `processChunk` for a cycle (part_001 lines 65-97): handle
`entries[index .. min(index + CHUNK_SIZE, length))`; if entries remain,
re-enqueue the continuation via `requestAnimationFrame`; otherwise publish
this cycle's stats via `setStats`. -/
def runTurn (s : SchedState) (c : ApplyCycle) : SchedState :=
  let slice := (c.entries.drop c.index).take CHUNK_SIZE
  let a := slice.foldl applyEntry ⟨s.surf, c.successCount, c.maxFlow⟩
  let idx := min (c.index + CHUNK_SIZE) c.entries.length
  if idx < c.entries.length then
    { surf := a.surf, stats := s.stats
      queue := s.queue ++ [⟨c.entries, idx, a.successCount, a.maxFlow⟩] }
  else
    { surf := a.surf, stats := ⟨a.successCount, a.maxFlow⟩, queue := s.queue }

/-- A new `applyFeatureStates(data)` call (part_001 line 99): the first
`processChunk()` runs synchronously; nothing cancels or dequeues the
continuations of previously started cycles. -/
def startApply (s : SchedState) (entries : List (ℕ × ℚ)) : SchedState :=
  runTurn s ⟨entries, 0, 0, 0⟩

/-- One animation frame: the event loop pops the oldest queued continuation
and runs it. -/
def rafStep (s : SchedState) : SchedState :=
  match s.queue with
  | [] => s
  | c :: rest => runTurn { s with queue := rest } c

/-- `REFRESH_INTERVAL = 15 * 60 * 1000` ms (part_001 line 16). -/
def REFRESH_INTERVAL : ℕ := 15 * 60 * 1000

/-- Tick times of `setInterval(fetchLiveData, REFRESH_INTERVAL)` installed by
the mount-time effect (part_001 lines 126-129), with the component mounted at
time 0: the timer fires at every positive multiple of the interval,
independent of the render surface's readiness. -/
def intervalTick (t : ℕ) : Bool :=
  t ≠ 0 && t % REFRESH_INTERVAL == 0

/-- Times at which the overlay component invokes `fetchLiveData`, for a run
where the component mounts at time 0 and the `sourcedata` handler installed by
`handleMapLoad` (part_001 lines 132-150) reports the rivers source loaded at
time `t0`: the readiness event triggers a fetch at `t0`, and every interval
tick triggers one, whether or not the source is ready. -/
def fetchAttemptAt (t0 t : ℕ) : Bool :=
  t == t0 || intervalTick t

/-- C6: for every viewport `v`, the planned query's limit is exactly the
step-function value of the spec's table at `v.zoom` (1000 below zoom 6, 2000
for 6 ≤ zoom < 8, 5000 for 8 ≤ zoom < 10, 8000 from zoom 10 up), and the
planned bbox is `v`'s visible rectangle unchanged. -/
theorem C6_plan_matches_spec_table (v : Viewport) :
    (plan v).limit = specTableLimit v.zoom ∧
    (plan v).west = v.west ∧ (plan v).south = v.south ∧
    (plan v).east = v.east ∧ (plan v).north = v.north := by
  refine ⟨?_, rfl, rfl, rfl, rfl⟩
  show planLimit v.zoom = specTableLimit v.zoom
  unfold planLimit specTableLimit
  split_ifs <;> first | rfl | linarith

/-- C7: the categorizer is total (it returns one of the six constructors by
type), identical in the route and the client copy, sends every nonpositive
flow to very_low, follows the piecewise threshold table on {1,10,50,200,1000},
and is monotonically non-decreasing in severity. -/
theorem C7_categorize_total_monotone (f : ℚ) :
    Route.getFlowCategory f = Client.getFlowCategory f ∧
    (f ≤ 0 → Route.getFlowCategory f = .very_low) ∧
    (∀ g : ℚ, f ≤ g →
      severity (Route.getFlowCategory f) ≤ severity (Route.getFlowCategory g)) ∧
    (f < 1 → Route.getFlowCategory f = .very_low) ∧
    (1 ≤ f → f < 10 → Route.getFlowCategory f = .low) ∧
    (10 ≤ f → f < 50 → Route.getFlowCategory f = .moderate) ∧
    (50 ≤ f → f < 200 → Route.getFlowCategory f = .high) ∧
    (200 ≤ f → f < 1000 → Route.getFlowCategory f = .very_high) ∧
    (1000 ≤ f → Route.getFlowCategory f = .extreme) := by
  refine ⟨rfl, ?_, ?_, ?_, ?_, ?_, ?_, ?_, ?_⟩
  · intro h
    unfold Route.getFlowCategory
    split_ifs <;> first | rfl | linarith
  · intro g hg
    unfold Route.getFlowCategory
    split_ifs <;> simp [severity] <;> linarith
  all_goals
    intros
    unfold Route.getFlowCategory
    split_ifs <;> first | rfl | linarith

/-- Witness for C7 at concrete flows: −3 is nonpositive hence very_low,
severity is monotone from 2 to 500, and 150 lands in `high`. -/
theorem C7_witness :
    Route.getFlowCategory (-3) = FlowCategory.very_low ∧
    severity (Route.getFlowCategory 2) ≤ severity (Route.getFlowCategory 500) ∧
    Route.getFlowCategory 150 = FlowCategory.high :=
  ⟨(C7_categorize_total_monotone (-3)).2.1 (by norm_num),
   (C7_categorize_total_monotone 2).2.2.1 500 (by norm_num),
   (C7_categorize_total_monotone 150).2.2.2.2.2.2.1 (by norm_num) (by norm_num)⟩

/-- C10: every absent bbox parameter of the flow endpoint defaults to the full
world extent (−180, −90, 180, 90) and an absent limit defaults to 5000; in
particular a request with no parameters at all queries the whole dataset
capped at 5000 rows. -/
theorem C10_route_defaults (p : FlowQueryParams) :
    (p.west = none → (routeEffective p).west = -180) ∧
    (p.south = none → (routeEffective p).south = -90) ∧
    (p.east = none → (routeEffective p).east = 180) ∧
    (p.north = none → (routeEffective p).north = 90) ∧
    (p.limit = none → (routeEffective p).limit = 5000) ∧
    routeEffective ⟨none, none, none, none, none⟩ = ⟨-180, -90, 180, 90, 5000⟩ := by
  refine ⟨?_, ?_, ?_, ?_, ?_, rfl⟩ <;> intro h <;> simp [routeEffective, h]

/-- Witness for C10 at the request with no parameters at all. -/
theorem C10_witness :
    (routeEffective ⟨none, none, none, none, none⟩).west = -180 ∧
    (routeEffective ⟨none, none, none, none, none⟩).south = -90 ∧
    (routeEffective ⟨none, none, none, none, none⟩).east = 180 ∧
    (routeEffective ⟨none, none, none, none, none⟩).north = 90 ∧
    (routeEffective ⟨none, none, none, none, none⟩).limit = 5000 :=
  ⟨(C10_route_defaults ⟨none, none, none, none, none⟩).1 rfl,
   (C10_route_defaults ⟨none, none, none, none, none⟩).2.1 rfl,
   (C10_route_defaults ⟨none, none, none, none, none⟩).2.2.1 rfl,
   (C10_route_defaults ⟨none, none, none, none, none⟩).2.2.2.1 rfl,
   (C10_route_defaults ⟨none, none, none, none, none⟩).2.2.2.2.1 rfl⟩

/-- The flowData written by resolving a fetch whose body parsed as a
FeatureCollection is that collection, whatever was displayed before. -/
theorem resolveFetch_collection_flowData (s : DirectState) (fs : List FlowFeature) :
    (resolveFetch s (.response (.collection fs))).flowData = some (.collection fs) := by
  unfold resolveFetch
  dsimp only
  split_ifs <;> rfl

/-- C1 counterexample: generation 1 is issued before generation 2, generation
2's response (features with comid 202) arrives first, generation 1's (comid
101) arrives last — and the final displayed data set is generation 1's, not
generation 2's: the stale result overwrites the newer data. -/
theorem C1_counterexample :
    (runDirect ⟨none, false, false, ⟨0, 0⟩⟩
        [.issue 1, .issue 2,
         .resolve 2 (.response (.collection [⟨202, 7⟩])),
         .resolve 1 (.response (.collection [⟨101, 5⟩]))]).flowData
      = some (.collection [⟨101, 5⟩]) ∧
    some (JsonBody.collection [⟨101, 5⟩]) ≠ some (JsonBody.collection [⟨202, 7⟩]) := by
  exact ⟨resolveFetch_collection_flowData _ _, by decide⟩

/-- C1 amended: the code performs no generation check, so responses apply in
arrival order — for any two overlapping cycles whose responses arrive in the
opposite order of issue, the final displayed data set is that of the response
that arrives last (the older generation's), overwriting the newer data. -/
theorem C1_amended_last_arrival_wins (s : DirectState) (g1 g2 : ℕ)
    (F1 F2 : List FlowFeature) :
    (runDirect s
        [.issue g1, .issue g2,
         .resolve g2 (.response (.collection F2)),
         .resolve g1 (.response (.collection F1))]).flowData
      = some (.collection F1) :=
  resolveFetch_collection_flowData _ F1

/-- C2 counterexample: in the direct-query mode, a non-2xx response whose body
is the route's `{error: ...}` document is written into flowData by
`setFlowData(data)` before `data.features.length` throws — the previously
displayed data set is replaced, and the component keeps no user-visible error
status at all. -/
theorem C2_counterexample :
    (resolveFetch ⟨some (.collection [⟨101, 5⟩]), false, true, ⟨1, 5⟩⟩
        (.response (.errorBody "Failed to fetch flow data"))).flowData
      = some (.errorBody "Failed to fetch flow data") ∧
    some (JsonBody.errorBody "Failed to fetch flow data")
      ≠ some (JsonBody.collection [⟨101, 5⟩]) := by
  exact ⟨rfl, by simp⟩

/-- C2 amended: in the overlay mode, every failing fetch cycle (HTTP error or
thrown network/parse error) clears loading, sets a user-visible error string,
and leaves both the render surface and the displayed RenderStats unchanged. In
the direct-query mode the guarantee does not hold (see the counterexample). -/
theorem C2_amended_overlay_failure (s : OverlayState) (st : ℕ) (m : String) :
    ((fetchLiveDataStep s (.httpError st)).loading = false ∧
     (fetchLiveDataStep s (.httpError st)).error = some ("HTTP " ++ toString st) ∧
     (fetchLiveDataStep s (.httpError st)).surf = s.surf ∧
     (fetchLiveDataStep s (.httpError st)).stats = s.stats) ∧
    ((fetchLiveDataStep s (.networkError m)).loading = false ∧
     (fetchLiveDataStep s (.networkError m)).error = some m ∧
     (fetchLiveDataStep s (.networkError m)).surf = s.surf ∧
     (fetchLiveDataStep s (.networkError m)).stats = s.stats) :=
  ⟨⟨rfl, rfl, rfl, rfl⟩, ⟨rfl, rfl, rfl, rfl⟩⟩

/-- C9 counterexample: a successful cycle whose response contains zero
features leaves the previous cycle's RenderStats on display (count 3 from the
older cycle, while the new result has 0 features): the `length > 0` guard
skips the recomputation. -/
theorem C9_counterexample :
    (resolveFetch ⟨some (.collection [⟨101, 5⟩]), false, true, ⟨3, 50⟩⟩
        (.response (.collection []))).flowData = some (.collection []) ∧
    (resolveFetch ⟨some (.collection [⟨101, 5⟩]), false, true, ⟨3, 50⟩⟩
        (.response (.collection []))).stats = ⟨3, 50⟩ ∧
    (3 : ℕ) ≠ List.length ([] : List FlowFeature) := by
  exact ⟨rfl, rfl, by decide⟩

/-- C9 amended: RenderStats are recomputed from the cycle's result exactly
when the successful response contains at least one feature; a successful
response with zero features leaves the previously displayed stats in place. -/
theorem C9_amended_stats_guarded (s : DirectState) (fs : List FlowFeature) :
    (fs ≠ [] →
      (resolveFetch s (.response (.collection fs))).stats =
        ⟨fs.length, mathMaxFlows (fs.map (·.streamflow_cms))⟩) ∧
    (fs = [] → (resolveFetch s (.response (.collection fs))).stats = s.stats) := by
  constructor
  · intro h
    unfold resolveFetch
    dsimp only
    rw [if_pos (by simpa using List.length_pos.mpr h)]
  · intro h
    subst h
    rfl

/-- Witness for C9 amended: a one-feature response recomputes the stats, an
empty response retains the old ones. -/
theorem C9_witness :
    (resolveFetch ⟨none, false, false, ⟨0, 0⟩⟩
        (.response (.collection [⟨1, 2⟩]))).stats = ⟨1, 2⟩ ∧
    (resolveFetch ⟨none, false, false, ⟨7, 9⟩⟩
        (.response (.collection []))).stats = ⟨7, 9⟩ :=
  ⟨(C9_amended_stats_guarded ⟨none, false, false, ⟨0, 0⟩⟩ [⟨1, 2⟩]).1 (by decide),
   (C9_amended_stats_guarded ⟨none, false, false, ⟨7, 9⟩⟩ []).2 rfl⟩

/-- When every settle event of a burst arrives less than the debounce window
after its predecessor, all earlier timers are cleared and only the last
event's timer fires. -/
theorem debounceFires_burst (e : SettleEvent) (es : List SettleEvent)
    (h : List.Chain' (fun a b => b.time < a.time + DEBOUNCE_MS) (e :: es)) :
    debounceFires (e :: es) =
      [(((e :: es).getLast (List.cons_ne_nil e es)).time + DEBOUNCE_MS,
        ((e :: es).getLast (List.cons_ne_nil e es)).viewport)] := by
  induction es generalizing e with
  | nil => rfl
  | cons e2 rest ih =>
    obtain ⟨h1, h2⟩ := List.chain'_cons.mp h
    simp only [debounceFires]
    rw [if_neg (by omega), ih e2 h2]
    simp [List.getLast_cons]

/-- C8: for every burst of N ≥ 1 settle events all within one 300 ms
quiescence window (each arriving less than DEBOUNCE_MS after the previous),
exactly one query fires, at the last event's time plus the window, and it uses
the query parameters planned from the last event's viewport. -/
theorem C8_debounce_single_query (e : SettleEvent) (es : List SettleEvent)
    (h : List.Chain' (fun a b => b.time < a.time + DEBOUNCE_MS) (e :: es)) :
    debounceFires (e :: es) =
      [(((e :: es).getLast (List.cons_ne_nil e es)).time + DEBOUNCE_MS,
        ((e :: es).getLast (List.cons_ne_nil e es)).viewport)] ∧
    (debounceFires (e :: es)).map (fun p => plan p.2) =
      [plan (((e :: es).getLast (List.cons_ne_nil e es)).viewport)] := by
  have hfire := debounceFires_burst e es h
  exact ⟨hfire, by rw [hfire]; rfl⟩

/-- Witness for C8: a burst of three settle events at 0 ms, 100 ms and 250 ms
produces exactly one fire, at 550 ms, with the third event's viewport. -/
theorem C8_witness :
    debounceFires
      [⟨0, ⟨-73, 44, -72, 45, 5⟩⟩, ⟨100, ⟨-73, 44, -72, 45, 7⟩⟩,
       ⟨250, ⟨-73, 44, -72, 45, 9⟩⟩] =
      [(550, ⟨-73, 44, -72, 45, 9⟩)] :=
  (C8_debounce_single_query ⟨0, ⟨-73, 44, -72, 45, 5⟩⟩
    [⟨100, ⟨-73, 44, -72, 45, 7⟩⟩, ⟨250, ⟨-73, 44, -72, 45, 9⟩⟩]
    (by norm_num [List.chain'_cons, DEBOUNCE_MS])).1

/-- C5 counterexample: if the rivers source only becomes ready at t0 =
1,000,000 ms after mount, the mount-anchored interval has already invoked
`fetchLiveData` at 900,000 ms — a fetch before readiness — and no
scheduler-triggered fetch happens at t0 + 15 min (1,900,000 ms). -/
theorem C5_counterexample :
    fetchAttemptAt 1000000 900000 = true ∧
    900000 < 1000000 ∧
    fetchAttemptAt 1000000 (1000000 + REFRESH_INTERVAL) = false := by
  refine ⟨by decide, by decide, by decide⟩

/-- C5 amended: the refresh interval is anchored at component mount (time 0),
not at source readiness: an immediate fetch does occur at the readiness time
t0 (via the sourcedata handler), but the scheduler's fetches occur at every
positive multiple of REFRESH_INTERVAL after mount, whether or not the surface
is ready — in particular a tick that precedes t0 still fetches. -/
theorem C5_amended_mount_anchored (t0 : ℕ) :
    fetchAttemptAt t0 t0 = true ∧
    (∀ k : ℕ, 1 ≤ k → fetchAttemptAt t0 (k * REFRESH_INTERVAL) = true) := by
  constructor
  · simp [fetchAttemptAt]
  · intro k hk
    have h1 : k * REFRESH_INTERVAL % REFRESH_INTERVAL = 0 := Nat.mul_mod_left k _
    have h2 : k * REFRESH_INTERVAL ≠ 0 := by
      have hI : REFRESH_INTERVAL = 900000 := rfl
      rw [hI]
      omega
    simp [fetchAttemptAt, intervalTick, h1, h2]

/-- Witness for C5 amended: readiness at 1000 ms gives an immediate fetch at
1000 ms, and the second interval tick fetches at 2 · REFRESH_INTERVAL. -/
theorem C5_witness :
    fetchAttemptAt 1000 1000 = true ∧
    fetchAttemptAt 1000 (2 * REFRESH_INTERVAL) = true :=
  ⟨(C5_amended_mount_anchored 1000).1,
   (C5_amended_mount_anchored 1000).2 2 (by decide)⟩

/-- `setFeatureState` never changes which features exist in the tileset, so a
single applied entry preserves the surface's present-id set. -/
theorem applyEntry_present (a : ApplyAcc) (e : ℕ × ℚ) :
    (applyEntry a e).surf.present = a.surf.present := by
  unfold applyEntry setFeatureState
  split_ifs <;> rfl

/-- One entry bumps the success count exactly when its id is present. -/
theorem applyEntry_successCount (a : ApplyAcc) (e : ℕ × ℚ) :
    (applyEntry a e).successCount =
      a.successCount + (if e.1 ∈ a.surf.present then 1 else 0) := by
  unfold applyEntry setFeatureState
  split_ifs <;> simp

/-- One entry folds its flow into maxFlow exactly when its id is present; the
source's `if (streamflow > maxFlow)` update is the binary max. -/
theorem applyEntry_maxFlow (a : ApplyAcc) (e : ℕ × ℚ) :
    (applyEntry a e).maxFlow =
      if e.1 ∈ a.surf.present then max a.maxFlow e.2 else a.maxFlow := by
  unfold applyEntry setFeatureState
  split_ifs with h1 h2
  · exact (max_eq_right h2.le).symm
  · exact (max_eq_left (not_lt.mp h2)).symm
  all_goals rfl

/-- Folding a list of entries over the accumulator: the present set is
unchanged, the success count grows by the number of entries whose id is
present, and maxFlow is the max-fold of the present entries' flows. -/
theorem foldl_applyEntry_spec (entries : List (ℕ × ℚ)) (a : ApplyAcc) :
    (entries.foldl applyEntry a).surf.present = a.surf.present ∧
    (entries.foldl applyEntry a).successCount =
      a.successCount +
        (entries.filter (fun e => decide (e.1 ∈ a.surf.present))).length ∧
    (entries.foldl applyEntry a).maxFlow =
      ((entries.filter (fun e => decide (e.1 ∈ a.surf.present))).map
        Prod.snd).foldl max a.maxFlow := by
  induction entries generalizing a with
  | nil => simp
  | cons e es ih =>
    obtain ⟨ih1, ih2, ih3⟩ := ih (applyEntry a e)
    have hp := applyEntry_present a e
    have hc := applyEntry_successCount a e
    have hm := applyEntry_maxFlow a e
    refine ⟨?_, ?_, ?_⟩
    · rw [List.foldl_cons, ih1, hp]
    · rw [List.foldl_cons, ih2, hp, hc, List.filter_cons]
      by_cases h : e.1 ∈ a.surf.present
      · simp [h]
        omega
      · simp [h]
    · rw [List.foldl_cons, ih3, hp, hm, List.filter_cons]
      by_cases h : e.1 ∈ a.surf.present <;> simp [h]

/-- The slices concatenate, in order, back to the original entry list: the
chunked loop touches each entry exactly once. -/
theorem chunksOf_flatten (l : List (ℕ × ℚ)) : (chunksOf l).flatten = l := by
  induction l using chunksOf.induct with
  | case1 => rw [chunksOf]; rfl
  | case2 e es ih => rw [chunksOf, List.flatten_cons, ih, List.take_append_drop]

/-- There are no slices exactly for the empty update mapping. -/
theorem chunksOf_eq_nil_iff (l : List (ℕ × ℚ)) : chunksOf l = [] ↔ l = [] := by
  cases l with
  | nil => rw [chunksOf]; simp
  | cons e es => rw [chunksOf]; simp

/-- Every slice is nonempty and holds at most CHUNK_SIZE entries. -/
theorem chunksOf_mem_length (l : List (ℕ × ℚ)) :
    ∀ c ∈ chunksOf l, c.length ≤ CHUNK_SIZE ∧ c ≠ [] := by
  induction l using chunksOf.induct with
  | case1 => rw [chunksOf]; simp
  | case2 e es ih =>
    rw [chunksOf]
    intro c hc
    rcases List.mem_cons.mp hc with h | h
    · subst h
      refine ⟨by simp, ?_⟩
      intro hnil
      have hlen := congrArg List.length hnil
      have hC : CHUNK_SIZE = 5000 := rfl
      simp only [List.length_take, List.length_cons, List.length_nil] at hlen
      omega
    · exact ih c h

/-- Every slice except the final one holds exactly CHUNK_SIZE entries. -/
theorem chunksOf_dropLast_length (l : List (ℕ × ℚ)) :
    ∀ c ∈ (chunksOf l).dropLast, c.length = CHUNK_SIZE := by
  induction l using chunksOf.induct with
  | case1 => rw [chunksOf]; simp
  | case2 e es ih =>
    rw [chunksOf]
    by_cases h : (e :: es).drop CHUNK_SIZE = []
    · intro c hc
      rw [(chunksOf_eq_nil_iff _).mpr h] at hc
      simp at hc
    · have hne : chunksOf ((e :: es).drop CHUNK_SIZE) ≠ [] := by
        rw [ne_eq, chunksOf_eq_nil_iff]
        exact h
      rw [List.dropLast_cons_of_ne_nil hne]
      intro c hc
      rcases List.mem_cons.mp hc with hcc | hcc
      · subst hcc
        have hlen : CHUNK_SIZE ≤ (e :: es).length := by
          by_contra hlt
          push_neg at hlt
          exact h (List.drop_eq_nil_of_le hlt.le)
        rw [List.length_take]
        omega
      · exact ih c hcc

/-- Processing all slices in order is the same as folding the whole entry list
once: the chunking only redistributes the work across scheduling turns. -/
theorem applyFeatureStates_eq_foldl (surf : Surface) (entries : List (ℕ × ℚ)) :
    applyFeatureStates surf entries = entries.foldl applyEntry ⟨surf, 0, 0⟩ := by
  unfold applyFeatureStates
  rw [← chunksOf_flatten entries, List.foldl_flatten]
  rw [chunksOf_flatten entries]

/-- The published count is the number of update entries whose feature id
exists in the render surface. -/
theorem applyStats_count (surf : Surface) (entries : List (ℕ × ℚ)) :
    (applyStats surf entries).count =
      (entries.filter (fun e => decide (e.1 ∈ surf.present))).length := by
  unfold applyStats
  rw [applyFeatureStates_eq_foldl]
  simpa using (foldl_applyEntry_spec entries ⟨surf, 0, 0⟩).2.1

/-- The published maxFlow is the fold of max over the applied entries' flows,
started at 0. -/
theorem applyStats_maxFlow (surf : Surface) (entries : List (ℕ × ℚ)) :
    (applyStats surf entries).maxFlow =
      ((entries.filter (fun e => decide (e.1 ∈ surf.present))).map
        Prod.snd).foldl max 0 := by
  unfold applyStats
  rw [applyFeatureStates_eq_foldl]
  simpa using (foldl_applyEntry_spec entries ⟨surf, 0, 0⟩).2.2

/-- An update mapping that fits in one slice produces exactly one slice. -/
theorem chunksOf_of_length_le (l : List (ℕ × ℚ)) (h0 : l ≠ [])
    (h : l.length ≤ CHUNK_SIZE) : chunksOf l = [l] := by
  cases l with
  | nil => exact absurd rfl h0
  | cons e es =>
    rw [chunksOf, List.take_of_length_le h, List.drop_eq_nil_of_le h,
      (chunksOf_eq_nil_iff []).mpr rfl]

/-- C3 counterexample: a mapping with the single entry (1, −2) whose id is
present in the surface applies exactly one entry, so the claim's maxFlow would
be −2 (the maximum streamflow among applied entries), yet the published
maxFlow is 0: the accumulator starts at 0 and `streamflow > maxFlow` never
fires for a negative flow. -/
theorem C3_counterexample :
    (applyStats ⟨[1], []⟩ [(1, -2)]).count = 1 ∧
    (applyStats ⟨[1], []⟩ [(1, -2)]).maxFlow = 0 ∧
    (0 : ℚ) ≠ -2 := by
  refine ⟨?_, ?_, by norm_num⟩
  · rw [applyStats_count]
    rfl
  · rw [applyStats_maxFlow]
    simp only [List.filter, List.map, List.foldl]
    norm_num

/-- C3 amended: `apply(updates)` over M entries processes the entries in
order, each exactly once (the slices concatenate to the input), in slices of
exactly CHUNK_SIZE = 5000 except a shorter final slice; an entry whose id is
absent from the surface is skipped without aborting the batch; the published
count is exactly the number of entries whose id is present in the surface
(hence ≤ M); and the published maxFlow is the maximum of 0 and the applied
entries' streamflows (so it equals the true maximum whenever some applied
flow is nonnegative, and is 0 when none were applied). -/
theorem C3_amended_chunked_apply (surf : Surface) (entries : List (ℕ × ℚ)) :
    (chunksOf entries).flatten = entries ∧
    (∀ c ∈ (chunksOf entries).dropLast, c.length = CHUNK_SIZE) ∧
    (∀ c ∈ chunksOf entries, c.length ≤ CHUNK_SIZE ∧ c ≠ []) ∧
    (applyStats surf entries).count =
      (entries.filter (fun e => decide (e.1 ∈ surf.present))).length ∧
    (applyStats surf entries).count ≤ entries.length ∧
    (applyStats surf entries).maxFlow =
      ((entries.filter (fun e => decide (e.1 ∈ surf.present))).map
        Prod.snd).foldl max 0 :=
  ⟨chunksOf_flatten entries, chunksOf_dropLast_length entries,
   chunksOf_mem_length entries, applyStats_count surf entries,
   by rw [applyStats_count]; exact List.length_filter_le _ entries,
   applyStats_maxFlow surf entries⟩

/-- Witness for C3 amended, the spec's own scenario: sites 101 (flow 0.5) and
999 (flow 1500) applied to a surface containing only 101 — one slice, count 1,
maxFlow 0.5, and 999 skipped silently. -/
theorem C3_witness :
    (chunksOf [(101, (1/2 : ℚ)), (999, 1500)]).flatten =
      [(101, 1/2), (999, 1500)] ∧
    [(101, (1/2 : ℚ)), (999, 1500)].length ≤ CHUNK_SIZE ∧
    (applyStats ⟨[101], []⟩ [(101, 1/2), (999, 1500)]).count = 1 ∧
    (applyStats ⟨[101], []⟩ [(101, 1/2), (999, 1500)]).maxFlow = 1/2 := by
  have h := C3_amended_chunked_apply ⟨[101], []⟩ [(101, 1/2), (999, 1500)]
  have hch : chunksOf [(101, (1/2 : ℚ)), (999, 1500)] =
      [[(101, 1/2), (999, 1500)]] :=
    chunksOf_of_length_le _ (by simp) (by norm_num [CHUNK_SIZE])
  refine ⟨h.1, ?_, ?_, ?_⟩
  · refine (h.2.2.1 [(101, 1/2), (999, 1500)] ?_).1
    rw [hch]
    exact List.mem_singleton.mpr rfl
  · rw [h.2.2.2.1]
    rfl
  · rw [h.2.2.2.2.2]
    simp only [List.filter, List.map, List.foldl]
    norm_num

/-- applyStats expressed through the single uninterrupted fold. -/
theorem applyStats_foldl (surf : Surface) (entries : List (ℕ × ℚ)) :
    applyStats surf entries =
      ⟨(entries.foldl applyEntry ⟨surf, 0, 0⟩).successCount,
       (entries.foldl applyEntry ⟨surf, 0, 0⟩).maxFlow⟩ := by
  unfold applyStats
  rw [applyFeatureStates_eq_foldl]

/-- A cycle's success count and maxFlow depend on the starting surface only
through its present-id set: two starting accumulators agreeing on the present
set, the count and the maxFlow fold to the same statistics. -/
theorem foldl_applyEntry_stats_congr (entries : List (ℕ × ℚ)) (x y : ApplyAcc)
    (hpres : x.surf.present = y.surf.present)
    (hcnt : x.successCount = y.successCount) (hmax : x.maxFlow = y.maxFlow) :
    (entries.foldl applyEntry x).successCount =
      (entries.foldl applyEntry y).successCount ∧
    (entries.foldl applyEntry x).maxFlow = (entries.foldl applyEntry y).maxFlow := by
  obtain ⟨-, hc1, hm1⟩ := foldl_applyEntry_spec entries x
  obtain ⟨-, hc2, hm2⟩ := foldl_applyEntry_spec entries y
  rw [hc1, hc2, hm1, hm2, hpres, hcnt, hmax]
  exact ⟨rfl, rfl⟩

/-- Starting a cycle larger than one slice runs its first slice synchronously
and enqueues the continuation at index CHUNK_SIZE; the published stats are
untouched. -/
theorem startApply_big (s : SchedState) (A : List (ℕ × ℚ))
    (h : CHUNK_SIZE < A.length) :
    startApply s A =
      { surf := ((A.take CHUNK_SIZE).foldl applyEntry ⟨s.surf, 0, 0⟩).surf
        stats := s.stats
        queue := s.queue ++ [⟨A, CHUNK_SIZE,
          ((A.take CHUNK_SIZE).foldl applyEntry ⟨s.surf, 0, 0⟩).successCount,
          ((A.take CHUNK_SIZE).foldl applyEntry ⟨s.surf, 0, 0⟩).maxFlow⟩] } := by
  unfold startApply runTurn
  dsimp only
  rw [List.drop_zero, if_pos (by omega)]
  have hmin : min (0 + CHUNK_SIZE) A.length = CHUNK_SIZE := by omega
  rw [hmin]

/-- Starting a cycle that fits in one slice runs it to completion
synchronously and publishes its stats. -/
theorem startApply_small (s : SchedState) (B : List (ℕ × ℚ))
    (h : B.length ≤ CHUNK_SIZE) :
    startApply s B =
      { surf := (B.foldl applyEntry ⟨s.surf, 0, 0⟩).surf
        stats := ⟨(B.foldl applyEntry ⟨s.surf, 0, 0⟩).successCount,
                  (B.foldl applyEntry ⟨s.surf, 0, 0⟩).maxFlow⟩
        queue := s.queue } := by
  unfold startApply runTurn
  dsimp only
  rw [List.drop_zero, List.take_of_length_le h, if_neg (by omega)]

/-- An animation frame whose queue holds one continuation with at most one
slice left runs it to completion and publishes that cycle's stats. -/
theorem rafStep_single_final (s : SchedState) (c : ApplyCycle)
    (hqueue : s.queue = [c])
    (hfin : c.entries.length ≤ c.index + CHUNK_SIZE) :
    rafStep s =
      { surf := (((c.entries.drop c.index).take CHUNK_SIZE).foldl applyEntry
          ⟨s.surf, c.successCount, c.maxFlow⟩).surf
        stats := ⟨(((c.entries.drop c.index).take CHUNK_SIZE).foldl applyEntry
          ⟨s.surf, c.successCount, c.maxFlow⟩).successCount,
          (((c.entries.drop c.index).take CHUNK_SIZE).foldl applyEntry
          ⟨s.surf, c.successCount, c.maxFlow⟩).maxFlow⟩
        queue := [] } := by
  unfold rafStep
  rw [hqueue]
  unfold runTurn
  dsimp only
  rw [if_neg (by omega)]

/-- Two overlapping apply cycles: A needs two turns, B one. B, started second,
runs to completion first and publishes its stats; then A's queued continuation
finishes and publishes A's stats over them. Both cycles' final statistics are
exactly what each would publish running alone (ids present in the tileset are
unchanged by feature-state writes), so the last value on display is the
earlier cycle A's. -/
theorem sched_overlap_stats (s0 : SchedState) (A B : List (ℕ × ℚ))
    (hq : s0.queue = []) (hA1 : CHUNK_SIZE < A.length)
    (hA2 : A.length ≤ 2 * CHUNK_SIZE) (hB : B.length ≤ CHUNK_SIZE) :
    (startApply (startApply s0 A) B).stats = applyStats s0.surf B ∧
    (rafStep (startApply (startApply s0 A) B)).stats = applyStats s0.surf A := by
  obtain ⟨hp1, -, -⟩ := foldl_applyEntry_spec (A.take CHUNK_SIZE) ⟨s0.surf, 0, 0⟩
  rw [startApply_big s0 A hA1, hq, startApply_small _ B hB]
  dsimp only
  obtain ⟨hp2, -, -⟩ := foldl_applyEntry_spec B
    ⟨((A.take CHUNK_SIZE).foldl applyEntry ⟨s0.surf, 0, 0⟩).surf, 0, 0⟩
  dsimp only at hp1 hp2
  constructor
  · rw [applyStats_foldl]
    obtain ⟨hcB, hmB⟩ := foldl_applyEntry_stats_congr B
      ⟨((A.take CHUNK_SIZE).foldl applyEntry ⟨s0.surf, 0, 0⟩).surf, 0, 0⟩
      ⟨s0.surf, 0, 0⟩ (by dsimp only; rw [hp1]) rfl rfl
    rw [RenderStats.mk.injEq]
    exact ⟨hcB, hmB⟩
  · rw [rafStep_single_final _ ⟨A, CHUNK_SIZE,
      ((A.take CHUNK_SIZE).foldl applyEntry ⟨s0.surf, 0, 0⟩).successCount,
      ((A.take CHUNK_SIZE).foldl applyEntry ⟨s0.surf, 0, 0⟩).maxFlow⟩
      (by rw [List.nil_append]) (by dsimp only; omega)]
    dsimp only
    rw [List.take_of_length_le (show (A.drop CHUNK_SIZE).length ≤ CHUNK_SIZE by
      rw [List.length_drop]; omega)]
    rw [applyStats_foldl]
    have hsplit : A.foldl applyEntry ⟨s0.surf, 0, 0⟩ =
        (A.drop CHUNK_SIZE).foldl applyEntry
          ((A.take CHUNK_SIZE).foldl applyEntry ⟨s0.surf, 0, 0⟩) := by
      rw [← List.foldl_append, List.take_append_drop]
    obtain ⟨hcA, hmA⟩ := foldl_applyEntry_stats_congr (A.drop CHUNK_SIZE)
      ⟨(B.foldl applyEntry
          ⟨((A.take CHUNK_SIZE).foldl applyEntry ⟨s0.surf, 0, 0⟩).surf, 0, 0⟩).surf,
        ((A.take CHUNK_SIZE).foldl applyEntry ⟨s0.surf, 0, 0⟩).successCount,
        ((A.take CHUNK_SIZE).foldl applyEntry ⟨s0.surf, 0, 0⟩).maxFlow⟩
      ((A.take CHUNK_SIZE).foldl applyEntry ⟨s0.surf, 0, 0⟩)
      (by dsimp only; rw [hp2, hp1]) rfl rfl
    rw [RenderStats.mk.injEq, hsplit]
    exact ⟨hcA, hmA⟩

/-- Folding max over n+1 copies of the same flow takes one max. -/
theorem foldl_max_replicate (n : ℕ) (m a : ℚ) :
    (List.replicate (n + 1) a).foldl max m = max m a := by
  induction n generalizing m with
  | zero => rfl
  | succ k ih =>
    rw [List.replicate_succ, List.foldl_cons, ih, max_assoc, max_self]

/-- Stats of applying n+1 identical updates to one present feature. -/
theorem applyStats_replicate_present (n : ℕ) (i : ℕ) (q : ℚ) (surf : Surface)
    (h : i ∈ surf.present) :
    applyStats surf (List.replicate (n + 1) (i, q)) = ⟨n + 1, max 0 q⟩ := by
  have hc := applyStats_count surf (List.replicate (n + 1) (i, q))
  have hm := applyStats_maxFlow surf (List.replicate (n + 1) (i, q))
  rw [List.filter_replicate] at hc hm
  simp [h] at hc hm
  rw [foldl_max_replicate] at hm
  have heta : applyStats surf (List.replicate (n + 1) (i, q)) =
      ⟨(applyStats surf (List.replicate (n + 1) (i, q))).count,
       (applyStats surf (List.replicate (n + 1) (i, q))).maxFlow⟩ := rfl
  rw [heta, hc, hm]

/-- C4 counterexample: cycle A — 5001 entries, all updating the present
feature 0 with flow 2 — starts first and needs two scheduling turns. Cycle B —
one entry (0, 7) — starts before A's second turn, so B is the most recently
started cycle; it completes synchronously and publishes ⟨1, 7⟩. A's slice loop
is NOT abandoned: its queued continuation still runs, still mutates render
state and publishes RenderStats, so the final stats are A's ⟨5001, 2⟩, not the
most recent cycle's ⟨1, 7⟩. -/
theorem C4_counterexample :
    (rafStep (startApply (startApply ⟨⟨[0], []⟩, ⟨0, 0⟩, []⟩
        (List.replicate (CHUNK_SIZE + 1) (0, 2))) [(0, 7)])).stats = ⟨5001, 2⟩ ∧
    applyStats ⟨[0], []⟩ [(0, 7)] = ⟨1, 7⟩ ∧
    (⟨5001, 2⟩ : RenderStats) ≠ ⟨1, 7⟩ := by
  have hC : CHUNK_SIZE = 5000 := rfl
  have hB : applyStats ⟨[0], []⟩ [(0, 7)] = ⟨1, 7⟩ := by
    have := applyStats_replicate_present 0 0 7 ⟨[0], []⟩ (by simp)
    simpa using this
  refine ⟨?_, hB, by simp⟩
  have h := sched_overlap_stats ⟨⟨[0], []⟩, ⟨0, 0⟩, []⟩
    (List.replicate (CHUNK_SIZE + 1) (0, 2)) [(0, 7)] rfl
    (by rw [List.length_replicate]; omega)
    (by rw [List.length_replicate]; omega)
    (by simp [hC])
  rw [h.2, applyStats_replicate_present CHUNK_SIZE 0 2 ⟨[0], []⟩ (by simp)]
  rw [hC]
  norm_num

/-- C4 amended: apply cycles are never superseded — a cycle started while an
earlier cycle's slice loop is still queued does not cancel it; both cycles run
to completion and each publishes its own RenderStats when its last slice
finishes, so the final published stats are those of the cycle finishing last,
which in this two-cycle schedule is the EARLIER-started cycle A (B, started
second but small enough to finish in its opening synchronous slice, publishes
first and is then overwritten). Each cycle's published stats equal its
stand-alone statistics because feature-state writes never change which ids are
present. -/
theorem C4_amended_no_supersession (s0 : SchedState) (A B : List (ℕ × ℚ))
    (hq : s0.queue = []) (hA1 : CHUNK_SIZE < A.length)
    (hA2 : A.length ≤ 2 * CHUNK_SIZE) (hB : B.length ≤ CHUNK_SIZE) :
    (startApply (startApply s0 A) B).stats = applyStats s0.surf B ∧
    (rafStep (startApply (startApply s0 A) B)).stats = applyStats s0.surf A :=
  sched_overlap_stats s0 A B hq hA1 hA2 hB

/-- Witness for C4 amended at the concrete two-cycle schedule. -/
theorem C4_witness :
    (startApply (startApply ⟨⟨[0], []⟩, ⟨0, 0⟩, []⟩
        (List.replicate (CHUNK_SIZE + 1) (0, 2))) [(0, 7)]).stats =
      applyStats ⟨[0], []⟩ [(0, 7)] ∧
    (rafStep (startApply (startApply ⟨⟨[0], []⟩, ⟨0, 0⟩, []⟩
        (List.replicate (CHUNK_SIZE + 1) (0, 2))) [(0, 7)])).stats =
      applyStats ⟨[0], []⟩ (List.replicate (CHUNK_SIZE + 1) (0, 2)) :=
  C4_amended_no_supersession ⟨⟨[0], []⟩, ⟨0, 0⟩, []⟩
    (List.replicate (CHUNK_SIZE + 1) (0, 2)) [(0, 7)] rfl
    (by rw [List.length_replicate]; omega)
    (by rw [List.length_replicate]; have hC : CHUNK_SIZE = 5000 := rfl; omega)
    (by have hC : CHUNK_SIZE = 5000 := rfl; simp [hC])
